import Mathlib

/-
Shallow embedding of the x86 emulator core (akiradeveloper/x86emu,
src/main.rs).  Machine integers are modelled as Nat with explicit
reduction modulo 2^8 / 2^32 / 2^64; Rust signed integers (i8/i32/i64)
are modelled as Int with explicit wrapping into their range.  Rust
arithmetic is modelled with release-profile (twos-complement wrapping)
semantics.  Operations that can panic in the source (out-of-bounds
slice access, `unimplemented!`, `unreachable!`) return Option, with
`none` standing for the aborted process.
-/

namespace X86Emu

/- `const MEMORY_SIZE: u32 = 1 << 20` -/
def MEMORY_SIZE : Nat := 2 ^ 20

/- Moduli of the machine integer types. -/
def U8 : Nat := 2 ^ 8

def U32 : Nat := 2 ^ 32

def U64 : Nat := 2 ^ 64

/-- Wrapping u32 arithmetic (Rust release-profile `+` on u32, `as u32` on u64). -/
def wrap32 (n : Nat) : Nat := n % U32

/-- The value of a Rust `x as u32` cast from a signed integer (sign reinterpretation). -/
def toU32 (z : Int) : Nat := (z % (U32 : Int)).toNat

/-- The value of a Rust `x as u64` cast from a signed i64 (sign reinterpretation). -/
def toU64 (z : Int) : Nat := (z % (U64 : Int)).toNat

/-- Wrapping u8 subtraction (`a - b` on u8, release profile). -/
def u8sub (a b : Nat) : Nat := ((((a : Int) - b) % (U8 : Int)).toNat)

/-- Wrapping u32 subtraction (`a - b` on u32, release profile). -/
def u32sub (a b : Nat) : Nat := ((((a : Int) - b) % (U32 : Int)).toNat)

/-- Wrapping u64 subtraction (`a - b` on u64, release profile). -/
def u64sub (a b : Nat) : Nat := ((((a : Int) - b) % (U64 : Int)).toNat)

/-- Wrap an Int into the i8 value range (Rust release-profile i8 arithmetic). -/
def i8Wrap (z : Int) : Int := (z + 2 ^ 7) % 2 ^ 8 - 2 ^ 7

/-- Wrap an Int into the i32 value range (Rust release-profile i32 arithmetic). -/
def i32Wrap (z : Int) : Int := (z + 2 ^ 31) % 2 ^ 32 - 2 ^ 31

/-- Reinterpret a byte as an i8 (`buf.read_i8()`). -/
def toI8 (b : Nat) : Int := i8Wrap b

/-- Reinterpret a 32-bit value as an i32 (`buf.read_i32::<LittleEndian>()`). -/
def toI32 (n : Nat) : Int := i32Wrap n

/-
`struct Memory { v: Vec<u8> }`.  `data` holds the byte at each address;
the Vec<u8> invariant (every byte < 256) is maintained by the store
operations.  Accessors return `none` where the Rust slice indexing or
the byteorder read would panic (address range not inside `[0, size)`).
-/
structure Memory where
  size : Nat
  data : Nat → Nat

namespace Memory

/-- `fn read_u8(&self, i: u32) -> u8` -/
def read_u8 (m : Memory) (i : Nat) : Option Nat :=
  if i < m.size then some (m.data i) else Option.none

/-- `fn read_i8(&self, i: u32) -> i8` -/
def read_i8 (m : Memory) (i : Nat) : Option Int :=
  if i < m.size then some (toI8 (m.data i)) else Option.none

/-- Little-endian decoding of the four bytes starting at `i`. -/
def leVal (m : Memory) (i : Nat) : Nat :=
  m.data i + U8 * m.data (i + 1) + U8 ^ 2 * m.data (i + 2) + U8 ^ 3 * m.data (i + 3)

/-- `fn read_u32(&self, i: u32) -> u32` (little endian) -/
def read_u32 (m : Memory) (i : Nat) : Option Nat :=
  if i + 4 ≤ m.size then some (m.leVal i) else Option.none

/-- `fn read_i32(&self, i: u32) -> i32` (little endian) -/
def read_i32 (m : Memory) (i : Nat) : Option Int :=
  if i + 4 ≤ m.size then some (toI32 (m.leVal i)) else Option.none

/-- The byte store `write_u32` performs: the four little-endian bytes of `v`
replace the bytes at `i .. i+3`. -/
def leWrite (m : Memory) (i v : Nat) : Memory :=
  { m with
      data := fun a =>
        if a = i then v % U8
        else if a = i + 1 then v / U8 % U8
        else if a = i + 2 then v / U8 ^ 2 % U8
        else if a = i + 3 then v / U8 ^ 3 % U8
        else m.data a }

/-- `fn write_u32(&mut self, i: u32, v: u32)` (little endian) -/
def write_u32 (m : Memory) (i v : Nat) : Option Memory :=
  if i + 4 ≤ m.size then some (m.leWrite i v) else Option.none

end Memory

/-
`struct Emulator { regs, eflags, eip, mem, insts }`.  The `insts`
dispatch table is the same immutable map for every emulator built by
`Emulator::new`; it is modelled by the global function `insts` below.
Register ordinals (enum REG): EAX=0, ECX=1, EDX=2, EBX=3, ESP=4,
EBP=5, ESI=6, EDI=7; COUNT=8.
-/
structure Emulator where
  regs : Nat → Nat
  eflags : Nat
  eip : Nat
  mem : Memory

namespace Emulator

/-- `fn read_reg(&self, i: usize) -> u32`; `self.regs[i]` panics for `i ≥ 8`. -/
def read_reg (e : Emulator) (i : Nat) : Option Nat :=
  if i < 8 then some (e.regs i) else Option.none

/-- `fn write_reg(&mut self, i: usize, v: u32)`; panics for `i ≥ 8`. -/
def write_reg (e : Emulator) (i v : Nat) : Option Emulator :=
  if i < 8 then some { e with regs := fun j => if j = i then v else e.regs j }
  else Option.none

/-- `fn push(&mut self, v: u32)`: decrement ESP by 4, then store `v` there. -/
def push (e : Emulator) (v : Nat) : Option Emulator := do
  let esp ← e.read_reg 4
  let new_esp := u32sub esp 4
  let e1 ← e.write_reg 4 new_esp
  let mem1 ← e1.mem.write_u32 new_esp v
  some { e1 with mem := mem1 }

/-- `fn pop(&mut self) -> u32`: read at ESP, then increment ESP by 4. -/
def pop (e : Emulator) : Option (Nat × Emulator) := do
  let cur ← e.read_reg 4
  let v ← e.mem.read_u32 cur
  let e1 ← e.write_reg 4 (wrap32 (cur + 4))
  some (v, e1)

end Emulator

/- `enum EFLAGS_SHIFT { CARRY = 1, ZERO = 6, SIGN = 7, OVERFLOW = 11 }` -/

/-- `fn set(eflags: &mut u32, shift: u32)` — set the bit at `shift`. -/
def set (f shift : Nat) : Nat := f ||| (1 <<< shift)

/-- The mask `!(1 << shift)` on u32, clearing the bit at `shift`. -/
def unset (f shift : Nat) : Nat := f &&& ((U32 - 1) ^^^ (1 <<< shift))

/-- `fn update_eflags(out: &mut u32, x: u32, y: u32, z: u64)` returning the new flags. -/
def update_eflags (out x y z : Nat) : Nat :=
  let sign_x := decide (0 < x >>> 31)
  let sign_y := decide (0 < y >>> 31)
  let sign_z := decide (0 < (z >>> 31) &&& 1)
  let f1 := if 0 < z >>> 32 then set out 1 else unset out 1
  let f2 := if z = 0 then set f1 6 else unset f1 6
  let f3 := if sign_z then set f2 7 else unset f2 7
  if sign_x ≠ sign_y ∧ sign_x ≠ sign_z then set f3 11 else unset f3 11

/- `enum Disp { None, i8(i8), i32(i32) }` -/
inductive Disp where
  | none : Disp
  | i8 (x : Int) : Disp
  | i32 (x : Int) : Disp

/- `struct ModRM { mo: u8, re: u8, rm: u8, sib: Option<u8>, disp: Disp }` -/
structure ModRM where
  mo : Nat
  re : Nat
  rm : Nat
  sib : Option Nat
  disp : Disp

namespace ModRM

/-- `fn parse(emu: &mut Emulator) -> ModRM`: read the ModRM byte (and SIB /
displacement bytes as the mode requires), advancing `eip`. -/
def parse (e : Emulator) : Option (ModRM × Emulator) := do
  let code ← e.mem.read_u8 e.eip
  let mo := (code &&& 0b11000000) >>> 6
  let re := (code &&& 0b00111000) >>> 3
  let rm := code &&& 0b00000111
  let e1 := { e with eip := wrap32 (e.eip + 1) }
  let (sib, e2) ←
    if mo ≠ 0b11 ∧ rm = 0b100 then do
      let s ← e1.mem.read_u8 e1.eip
      pure (some s, { e1 with eip := wrap32 (e1.eip + 1) })
    else
      pure (Option.none, e1)
  let (disp, e3) ←
    if mo = 0b10 ∨ (mo = 0b00 ∧ rm = 0b101) then do
      let d ← e2.mem.read_i32 e2.eip
      pure (Disp.i32 d, { e2 with eip := wrap32 (e2.eip + 4) })
    else if mo = 0b01 then do
      let d ← e2.mem.read_i8 e2.eip
      pure (Disp.i8 d, { e2 with eip := wrap32 (e2.eip + 1) })
    else
      pure (Disp.none, e2)
  some ({ mo := mo, re := re, rm := rm, sib := sib, disp := disp }, e3)

/-- `fn calc_memory_address(&self, emu: &Emulator) -> u32`.  The negative
branches model `base - (-x) as u32` including the wrapping i8/i32 negation. -/
def calc_memory_address (x : ModRM) (e : Emulator) : Option Nat :=
  match x.mo with
  | 0 =>
    match x.rm with
    | 4 => Option.none
    | 5 =>
      match x.disp with
      | Disp.i32 d => some (toU32 d)
      | _ => Option.none
    | _ => e.read_reg x.rm
  | 1 =>
    match x.rm with
    | 4 => Option.none
    | _ =>
      match x.disp with
      | Disp.i8 d =>
        (e.read_reg x.rm).map (fun base =>
          if 0 ≤ d then wrap32 (base + d.toNat)
          else u32sub base (toU32 (i8Wrap (-d))))
      | _ => Option.none
  | 2 =>
    match x.rm with
    | 4 => Option.none
    | _ =>
      match x.disp with
      | Disp.i32 d =>
        (e.read_reg x.rm).map (fun base =>
          if 0 ≤ d then wrap32 (base + d.toNat)
          else u32sub base (toU32 (i32Wrap (-d))))
      | _ => Option.none
  | 3 => Option.none
  | _ => Option.none

/-- `fn write_u32(&self, v: u32, emu: &mut Emulator)` — operand write. -/
def write_u32 (x : ModRM) (v : Nat) (e : Emulator) : Option Emulator :=
  match x.mo with
  | 3 => e.write_reg x.rm v
  | _ => do
    let addr ← x.calc_memory_address e
    let mem1 ← e.mem.write_u32 addr v
    some { e with mem := mem1 }

/-- `fn read_u32(&self, emu: &mut Emulator) -> u32` — operand read. -/
def read_u32 (x : ModRM) (e : Emulator) : Option Nat :=
  match x.mo with
  | 3 => e.read_reg x.rm
  | _ => do
    let addr ← x.calc_memory_address e
    e.mem.read_u32 addr

end ModRM

/-
The instruction handlers (`define_inst!` structs implementing
`Instruction::exec`).  Each takes the emulator with `eip` at the opcode
byte and returns the emulator after the instruction, or `none` where
the handler panics.
-/

/-- `mov_r32_imm32` (0xB8–0xBF): register = 4-byte immediate. -/
def mov_r32_imm32 (e : Emulator) : Option Emulator := do
  let op ← e.mem.read_u8 e.eip
  let k := u8sub op 0xB8
  let v ← e.mem.read_u32 (wrap32 (e.eip + 1))
  let e1 ← e.write_reg k v
  some { e1 with eip := wrap32 (e1.eip + 5) }

/-- `short_jump` (0xEB): eip adjusted by `diff + 2`, sign-aware. -/
def short_jump (e : Emulator) : Option Emulator := do
  let diff ← e.mem.read_i8 (wrap32 (e.eip + 1))
  let d := i8Wrap (diff + 2)
  if 0 ≤ d then some { e with eip := wrap32 (e.eip + d.toNat) }
  else some { e with eip := u32sub e.eip (toU32 (i8Wrap (-d))) }

/-- `near_jump` (0xE9): eip adjusted by `diff + 5`, sign-aware. -/
def near_jump (e : Emulator) : Option Emulator := do
  let diff ← e.mem.read_i32 (wrap32 (e.eip + 1))
  let d := i32Wrap (diff + 5)
  if 0 ≤ d then some { e with eip := wrap32 (e.eip + d.toNat) }
  else some { e with eip := u32sub e.eip (toU32 (i32Wrap (-d))) }

/-- `mov_rm32_imm32` (0xC7): destination operand = 4-byte immediate. -/
def mov_rm32_imm32 (e : Emulator) : Option Emulator := do
  let e := { e with eip := wrap32 (e.eip + 1) }
  let (modrm, e) ← ModRM.parse e
  let v ← e.mem.read_u32 e.eip
  let e := { e with eip := wrap32 (e.eip + 4) }
  modrm.write_u32 v e

/-- `mov_rm32_r32` (0x89): destination operand = reg(`re`). -/
def mov_rm32_r32 (e : Emulator) : Option Emulator := do
  let e := { e with eip := wrap32 (e.eip + 1) }
  let (modrm, e) ← ModRM.parse e
  let v ← e.read_reg modrm.re
  modrm.write_u32 v e

/-- `mov_r32_rm32` (0x8B): reg(`re`) = source operand. -/
def mov_r32_rm32 (e : Emulator) : Option Emulator := do
  let e := { e with eip := wrap32 (e.eip + 1) }
  let (modrm, e) ← ModRM.parse e
  let v ← modrm.read_u32 e
  e.write_reg modrm.re v

/-- `add_rm32_r32` (0x01): destination += reg(`re`); flags NOT updated
("TODO eflags" in the source). -/
def add_rm32_r32 (e : Emulator) : Option Emulator := do
  let e := { e with eip := wrap32 (e.eip + 1) }
  let (modrm, e) ← ModRM.parse e
  let a ← modrm.read_u32 e
  let b ← e.read_reg modrm.re
  let c := wrap32 (a + b)
  modrm.write_u32 c e

/-- `cmp_r32_rm32`: compute `reg(re) as u64 - source as u64` (wrapping),
discard the value, update the flags.  Defined in the source but never
inserted into the dispatch table. -/
def cmp_r32_rm32 (e : Emulator) : Option Emulator := do
  let e := { e with eip := wrap32 (e.eip + 1) }
  let (modrm, e) ← ModRM.parse e
  let a ← e.read_reg modrm.re
  let b ← modrm.read_u32 e
  let c := u64sub a b
  some { e with eflags := update_eflags e.eflags a b c }

/-- `code_83` (0x83): ModRM `re` selects ADD/SUB/CMP r/m32, imm8.  The
immediate is sign-extended by the `i8 as u32` cast, then zero-extended
into the wide i64 by the `u32 as i64` cast. -/
def code_83 (e : Emulator) : Option Emulator := do
  let e := { e with eip := wrap32 (e.eip + 1) }
  let (modrm, e) ← ModRM.parse e
  match modrm.re with
  | 0 => do
    let a ← modrm.read_u32 e
    let bi ← e.mem.read_i8 e.eip
    let b := toU32 bi
    let e := { e with eip := wrap32 (e.eip + 1) }
    let c : Int := (a : Int) + (b : Int)
    let e1 ← modrm.write_u32 (toU32 c) e
    some { e1 with eflags := update_eflags e1.eflags a b (toU64 c) }
  | 5 => do
    let a ← modrm.read_u32 e
    let bi ← e.mem.read_i8 e.eip
    let b := toU32 bi
    let e := { e with eip := wrap32 (e.eip + 1) }
    let c : Int := (a : Int) - (b : Int)
    let e1 ← modrm.write_u32 (toU32 c) e
    some { e1 with eflags := update_eflags e1.eflags a b (toU64 c) }
  | 7 => do
    let a ← modrm.read_u32 e
    let bi ← e.mem.read_i8 e.eip
    let b := toU32 bi
    let e := { e with eip := wrap32 (e.eip + 1) }
    let c : Int := (a : Int) - (b : Int)
    some { e with eflags := update_eflags e.eflags a b (toU64 c) }
  | _ => Option.none

/-- `code_ff` (0xFF): `re`=0 is INC r/m32 (no flag update); other
selectors are `unimplemented!`. -/
def code_ff (e : Emulator) : Option Emulator := do
  let e := { e with eip := wrap32 (e.eip + 1) }
  let (modrm, e) ← ModRM.parse e
  match modrm.re with
  | 0 => do
    let a ← modrm.read_u32 e
    modrm.write_u32 (wrap32 (a + 1)) e
  | _ => Option.none

/-- `push_imm8` (0x6A): push the unsigned byte widened to 32 bits. -/
def push_imm8 (e : Emulator) : Option Emulator := do
  let v ← e.mem.read_u8 (wrap32 (e.eip + 1))
  let e1 ← e.push v
  some { e1 with eip := wrap32 (e1.eip + 2) }

/-- `push_imm32` (0x68): push the 4-byte immediate. -/
def push_imm32 (e : Emulator) : Option Emulator := do
  let v ← e.mem.read_u32 (wrap32 (e.eip + 1))
  let e1 ← e.push v
  some { e1 with eip := wrap32 (e1.eip + 5) }

/-- `push_r32` (0x50–0x57): push the register selected by `opcode - 0x50`. -/
def push_r32 (e : Emulator) : Option Emulator := do
  let op ← e.mem.read_u8 e.eip
  let reg := u8sub op 0x50
  let v ← e.read_reg reg
  let e1 ← e.push v
  some { e1 with eip := wrap32 (e1.eip + 1) }

/-- `pop_r32` (0x58–0x5F): pop into the register selected by `opcode - 0x58`. -/
def pop_r32 (e : Emulator) : Option Emulator := do
  let op ← e.mem.read_u8 e.eip
  let reg := u8sub op 0x58
  let (v, e1) ← e.pop
  let e2 ← e1.write_reg reg v
  some { e2 with eip := wrap32 (e2.eip + 1) }

/-- `call_rel32` (0xE8): push `eip + 5` (the address after the call),
then adjust eip by `diff + 5`, sign-aware. -/
def call_rel32 (e : Emulator) : Option Emulator := do
  let diff ← e.mem.read_i32 (wrap32 (e.eip + 1))
  let e1 ← e.push (wrap32 (e.eip + 5))
  let d := i32Wrap (diff + 5)
  if 0 ≤ d then some { e1 with eip := wrap32 (e1.eip + d.toNat) }
  else some { e1 with eip := u32sub e1.eip (toU32 (i32Wrap (-d))) }

/-- `leave` (0xC9): ESP = EBP, then pop into EBP. -/
def leave (e : Emulator) : Option Emulator := do
  let ebp ← e.read_reg 5
  let e1 ← e.write_reg 4 ebp
  let (v, e2) ← e1.pop
  let e3 ← e2.write_reg 5 v
  some { e3 with eip := wrap32 (e3.eip + 1) }

/-- `ret` (0xC3): pop the new eip. -/
def ret (e : Emulator) : Option Emulator := do
  let (v, e1) ← e.pop
  some { e1 with eip := v }

/-- Tags for the `Instruction` trait objects defined in the source. -/
inductive Inst where
  | mov_r32_imm32 : Inst
  | short_jump : Inst
  | near_jump : Inst
  | mov_rm32_imm32 : Inst
  | mov_rm32_r32 : Inst
  | mov_r32_rm32 : Inst
  | add_rm32_r32 : Inst
  | cmp_r32_rm32 : Inst
  | code_83 : Inst
  | code_ff : Inst
  | push_imm8 : Inst
  | push_imm32 : Inst
  | push_r32 : Inst
  | pop_r32 : Inst
  | call_rel32 : Inst
  | leave : Inst
  | ret : Inst
deriving DecidableEq

/-- The opcode dispatch table built in `Emulator::new` (all
`insts.insert` calls; the keys are pairwise distinct). -/
def insts (op : Nat) : Option Inst :=
  if op = 0x01 then some Inst.add_rm32_r32
  else if 0x50 ≤ op ∧ op ≤ 0x57 then some Inst.push_r32
  else if 0x58 ≤ op ∧ op ≤ 0x5F then some Inst.pop_r32
  else if op = 0x68 then some Inst.push_imm32
  else if op = 0x6A then some Inst.push_imm8
  else if op = 0x83 then some Inst.code_83
  else if op = 0x89 then some Inst.mov_rm32_r32
  else if op = 0x8B then some Inst.mov_r32_rm32
  else if 0xB8 ≤ op ∧ op ≤ 0xBF then some Inst.mov_r32_imm32
  else if op = 0xC3 then some Inst.ret
  else if op = 0xC7 then some Inst.mov_rm32_imm32
  else if op = 0xC9 then some Inst.leave
  else if op = 0xE8 then some Inst.call_rel32
  else if op = 0xE9 then some Inst.near_jump
  else if op = 0xEB then some Inst.short_jump
  else if op = 0xFF then some Inst.code_ff
  else Option.none

/-- `Instruction::exec` for each handler object. -/
def Inst.run : Inst → Emulator → Option Emulator
  | Inst.mov_r32_imm32 => X86Emu.mov_r32_imm32
  | Inst.short_jump => X86Emu.short_jump
  | Inst.near_jump => X86Emu.near_jump
  | Inst.mov_rm32_imm32 => X86Emu.mov_rm32_imm32
  | Inst.mov_rm32_r32 => X86Emu.mov_rm32_r32
  | Inst.mov_r32_rm32 => X86Emu.mov_r32_rm32
  | Inst.add_rm32_r32 => X86Emu.add_rm32_r32
  | Inst.cmp_r32_rm32 => X86Emu.cmp_r32_rm32
  | Inst.code_83 => X86Emu.code_83
  | Inst.code_ff => X86Emu.code_ff
  | Inst.push_imm8 => X86Emu.push_imm8
  | Inst.push_imm32 => X86Emu.push_imm32
  | Inst.push_r32 => X86Emu.push_r32
  | Inst.pop_r32 => X86Emu.pop_r32
  | Inst.call_rel32 => X86Emu.call_rel32
  | Inst.leave => X86Emu.leave
  | Inst.ret => X86Emu.ret

/-- The distinct exit paths of `Emulator::exec`.  The Rust function
returns `()` and only prints the reason; each constructor corresponds
to one exit path of the loop: `range` = the `while eip < MEMORY_SIZE`
condition fails, `unimpl` = the "op not implemented" break, `natural` =
the `eip == 0` "END" break, `fatal` = a handler (or the fetch)
panicked, `fuel` = the fuel of this model ran out. -/
inductive Reason where
  | range : Reason
  | unimpl : Reason
  | natural : Reason
  | fatal : Reason
  | fuel : Reason
deriving DecidableEq

/-- `fn exec(&mut self)`, fuel-indexed.  Returns the final machine
state (observable through `&mut self`) instrumented with which exit
path was taken (the Rust code only prints it to stderr). -/
def Emulator.exec : Nat → Emulator → Emulator × Reason
  | 0, e => (e, Reason.fuel)
  | n + 1, e =>
    if e.eip < MEMORY_SIZE then
      match e.mem.read_u8 e.eip with
      | Option.none => (e, Reason.fatal)
      | some op =>
        match insts op with
        | Option.none => (e, Reason.unimpl)
        | some i =>
          match i.run e with
          | Option.none => (e, Reason.fatal)
          | some e1 => if e1.eip = 0 then (e1, Reason.natural) else Emulator.exec n e1
    else (e, Reason.range)

/- Concrete machine states used by the theorems below. -/

/-- Emulator about to execute `83 C0 FF` (ADD EAX, imm8 −1) with EAX = 1. -/
def mC1 : Emulator :=
  { regs := fun i => if i = 0 then 1 else 0
    eflags := 0
    eip := 0
    mem := { size := MEMORY_SIZE
             data := fun a => if a = 0 then 0x83 else if a = 1 then 0xC0 else if a = 2 then 0xFF else 0 } }

/-- Emulator whose ModRM byte (at address 1) is `0xC1`: register-direct,
`re` = 0 (EAX), `rm` = 1 (ECX); EAX = a, ECX = b, flags = f. -/
def cmpM (f a b : Nat) : Emulator :=
  { regs := fun i => if i = 0 then a else if i = 1 then b else 0
    eflags := f
    eip := 0
    mem := { size := MEMORY_SIZE, data := fun addr => if addr = 1 then 0xC1 else 0 } }

/-- A zeroed machine (all registers 0, zero-filled 1 MiB memory). -/
def mZero : Emulator :=
  { regs := fun _ => 0
    eflags := 0
    eip := 0
    mem := { size := MEMORY_SIZE, data := fun _ => 0 } }

/-- ModRM operand with `mod` = 01, `rm` = 0 (base EAX) and 8-bit displacement −128. -/
def mrDisp8Min : ModRM :=
  { mo := 1, re := 0, rm := 0, sib := Option.none, disp := Disp.i8 (-128) }

/-- Emulator about to execute `C3` (RET) at eip = 16 with ESP = 100 and a
zeroed stack, so RET pops 0 into eip (natural-termination sentinel). -/
def mC4 : Emulator :=
  { regs := fun i => if i = 4 then 100 else 0
    eflags := 0
    eip := 16
    mem := { size := MEMORY_SIZE, data := fun a => if a = 16 then 0xC3 else 0 } }

/-- The machine state `Emulator::exec` leaves behind when run on `mC4`. -/
def mC4f : Emulator := (Emulator.exec 2 mC4).1

/-- Emulator about to execute `83 E8 FF` (SUB EAX, imm8 −1) with EAX = 5. -/
def mC5 : Emulator :=
  { regs := fun i => if i = 0 then 5 else 0
    eflags := 0
    eip := 0
    mem := { size := MEMORY_SIZE
             data := fun x => if x = 0 then 0x83 else if x = 1 then 0xE8 else if x = 2 then 0xFF else 0 } }

/-- Emulator about to execute `83 E8 ib` (SUB EAX, imm8) with EAX = a and
flags = f, for arbitrary operand a and immediate byte ib. -/
def subM (a ib f : Nat) : Emulator :=
  { regs := fun i => if i = 0 then a else 0
    eflags := f
    eip := 0
    mem := { size := MEMORY_SIZE
             data := fun x => if x = 0 then 0x83 else if x = 1 then 0xE8 else if x = 2 then ib else 0 } }

/-- Machine with ESP = 100 over zeroed memory (push/pop witness). -/
def mW7 : Emulator :=
  { regs := fun i => if i = 4 then 100 else 0
    eflags := 0
    eip := 0
    mem := { size := MEMORY_SIZE, data := fun _ => 0 } }

/-- Machine about to execute `E8 00 00 00 00` (CALL rel32 0) at eip = 16
with ESP = 100 (call/ret witness). -/
def mW8 : Emulator :=
  { regs := fun i => if i = 4 then 100 else 0
    eflags := 0
    eip := 16
    mem := { size := MEMORY_SIZE, data := fun a => if a = 16 then 0xE8 else 0 } }

/-- Machine whose every byte is the ModRM byte `0xC1` (parse witness). -/
def mW10 : Emulator :=
  { regs := fun _ => 0
    eflags := 0
    eip := 0
    mem := { size := MEMORY_SIZE, data := fun _ => 0xC1 } }

/-- The ModRM descriptor `parse` extracts from byte `0xC1`. -/
def mrW10 : ModRM := { mo := 3, re := 0, rm := 1, sib := Option.none, disp := Disp.none }

/-- `mW10` after consuming the ModRM byte. -/
def mW10a : Emulator := { mW10 with eip := 1 }


/- Theorems.  Helper lemmas first, then one theorem per claim. -/

set_option maxRecDepth 100000

/-- Reducing `wrap32` on a value already below 2^32 is the identity. -/
lemma wrap32_small (x : Nat) (h : x < U32) : wrap32 x = x := by
  unfold wrap32
  exact Nat.mod_eq_of_lt h

/-- Wrapping u32 subtraction agrees with Nat subtraction when no borrow occurs. -/
lemma u32sub_small (x y : Nat) (hy : y ≤ x) (hx : x < U32) : u32sub x y = x - y := by
  unfold u32sub U32 at *
  push_cast
  omega

/-- Reading back the four bytes `leWrite` stored recovers the stored value. -/
lemma read_write (m : Memory) (i v : Nat) (hi : i + 4 ≤ m.size) (hv : v < U32) :
    (m.leWrite i v).read_u32 i = some v := by
  unfold Memory.read_u32 Memory.leWrite Memory.leVal
  dsimp only
  rw [if_pos hi]
  simp only [show i + 1 ≠ i from by omega, show i + 2 ≠ i from by omega,
    show i + 2 ≠ i + 1 from by omega, show i + 3 ≠ i from by omega,
    show i + 3 ≠ i + 1 from by omega, show i + 3 ≠ i + 2 from by omega,
    eq_self_iff_true, if_true, if_false, ite_true, ite_false]
  unfold U8 U32 at *
  congr 1
  omega

/-- In-bounds `write_u32` succeeds and stores the little-endian bytes. -/
lemma write_u32_ok (m : Memory) (i v : Nat) (hi : i + 4 ≤ m.size) :
    m.write_u32 i v = some (m.leWrite i v) := by
  unfold Memory.write_u32
  rw [if_pos hi]

/-- Behaviour of `push` on an in-bounds stack: ESP is decremented by 4 first,
then the value is stored at the new ESP. -/
lemma push_spec (e : Emulator) (v : Nat)
    (h4 : 4 ≤ e.regs 4) (hlt : e.regs 4 < U32) (hsz : e.regs 4 ≤ e.mem.size) :
    Emulator.push e v =
      some { e with regs := fun j => if j = 4 then e.regs 4 - 4 else e.regs j,
                    mem := e.mem.leWrite (e.regs 4 - 4) v } := by
  have hsub : u32sub (e.regs 4) 4 = e.regs 4 - 4 := u32sub_small _ _ h4 hlt
  unfold Emulator.push Emulator.read_reg Emulator.write_reg
  rw [if_pos (by omega : (4:Nat) < 8)]
  dsimp only [Option.bind, bind]
  rw [if_pos (by omega : (4:Nat) < 8)]
  rw [hsub]
  dsimp only
  rw [write_u32_ok _ _ _ (by omega : e.regs 4 - 4 + 4 ≤ e.mem.size)]

/-- Behaviour of `pop`: the value at ESP is read first, then ESP is
incremented by 4. -/
lemma pop_spec (e : Emulator) (w : Nat)
    (hr : e.mem.read_u32 (e.regs 4) = some w) (hlt : e.regs 4 + 4 < U32) :
    Emulator.pop e = some (w, { e with regs := fun j => if j = 4 then e.regs 4 + 4 else e.regs j }) := by
  unfold Emulator.pop Emulator.read_reg Emulator.write_reg
  rw [if_pos (by omega : (4:Nat) < 8)]
  dsimp only [Option.bind, bind]
  rw [hr]
  dsimp only [Option.bind]
  rw [if_pos (by omega : (4:Nat) < 8)]
  rw [wrap32_small _ hlt]

/-- Behaviour of `ret`: it pops the word at ESP into the instruction pointer. -/
lemma ret_spec (e : Emulator) (w : Nat)
    (hr : e.mem.read_u32 (e.regs 4) = some w) (hlt : e.regs 4 + 4 < U32) :
    X86Emu.ret e =
      some { e with regs := fun j => if j = 4 then e.regs 4 + 4 else e.regs j, eip := w } := by
  unfold X86Emu.ret
  rw [pop_spec e w hr hlt]
  rfl

/-- Parsing a register-direct ModRM byte (`mod` = 11) consumes exactly one
byte and extracts the three bit fields. -/
lemma parse_reg_direct (e : Emulator) (c : Nat)
    (hc : e.mem.read_u8 e.eip = some c)
    (hmo : (c &&& 0b11000000) >>> 6 = 3) :
    ModRM.parse e =
      some ({ mo := 3, re := (c &&& 0b00111000) >>> 3, rm := c &&& 0b00000111,
              sib := Option.none, disp := Disp.none },
            { e with eip := wrap32 (e.eip + 1) }) := by
  unfold ModRM.parse
  rw [hc]
  simp only [Option.bind, bind, hmo]
  simp

/-- Subtracting a value reduced mod 2^32 gives the same u32 truncation as
subtracting the value itself. -/
lemma toU32_sub_toU32 (a : Nat) (x : Int) :
    toU32 ((a : Int) - (toU32 x : Int)) = toU32 ((a : Int) - x) := by
  unfold toU32 U32
  push_cast
  omega

/-- The ModRM `reg` field, extracted by mask 0b00111000 and shift 3, is below 8. -/
lemma and56_shift3_lt8 (c : Nat) : (c &&& 56) >>> 3 < 8 := by
  have h := Nat.and_le_right (n := c) (m := 56)
  rw [Nat.shiftRight_eq_div_pow]
  omega

/-- The ModRM `rm` field, extracted by mask 0b00000111, is below 8. -/
lemma and7_lt8 (c : Nat) : c &&& 7 < 8 := by
  have h := Nat.and_le_right (n := c) (m := 7)
  omega

/-- Bit `i` of `set f s` is bit `i` of `f`, or 1 when `i = s`. -/
lemma testBit_set (f s i : Nat) :
    Nat.testBit (set f s) i = (Nat.testBit f i || decide (s = i)) := by
  unfold set
  rw [Nat.testBit_or, Nat.shiftLeft_eq, one_mul, Nat.testBit_two_pow]

/-- Bit `i` of `unset f s` (for `s` < 32): bit `i` of `f`, cleared at `i = s`
and at every bit at position 32 or above (the mask is a 32-bit value). -/
lemma testBit_unset (f s i : Nat) (hs : s < 32) :
    Nat.testBit (unset f s) i = (Nat.testBit f i && !(decide (s = i)) && decide (i < 32)) := by
  unfold unset U32
  rw [Nat.testBit_and, Nat.testBit_xor, Nat.testBit_two_pow_sub_one, Nat.shiftLeft_eq, one_mul,
    Nat.testBit_two_pow]
  by_cases h1 : s = i
  · subst h1
    simp [hs]
  · by_cases h2 : i < 32 <;> simp [h1, h2]

/-- The carry test `z >> 32 > 0` holds exactly when some bit at position 32
or above is set in `z`. -/
lemma highbits_iff (z : Nat) : 0 < z >>> 32 ↔ (∃ i, 32 ≤ i ∧ Nat.testBit z i = true) := by
  rw [Nat.shiftRight_eq_div_pow]
  constructor
  · intro h
    have hz : 2 ^ 32 ≤ z := by omega
    obtain ⟨i, hi, hb⟩ := Nat.ge_two_pow_implies_high_bit_true hz
    exact ⟨i, hi, hb⟩
  · rintro ⟨i, hi, hb⟩
    have h1 := Nat.testBit_implies_ge hb
    have h2 : (2 : Nat) ^ 32 ≤ 2 ^ i := Nat.pow_le_pow_right (by omega) hi
    exact Nat.div_pos (le_trans h2 h1) (by positivity)

/-- For a u32 value the sign test `x >> 31 > 0` is exactly bit 31. -/
lemma sign_decide (x : Nat) (hx : x < U32) : decide (0 < x >>> 31) = Nat.testBit x 31 := by
  unfold U32 at hx
  rw [Nat.testBit_to_div_mod, Nat.shiftRight_eq_div_pow]
  exact decide_eq_decide.mpr (by omega)

/-- The sign test `(z >> 31) & 1 > 0` is exactly bit 31 of `z`. -/
lemma signz_decide (z : Nat) : decide (0 < (z >>> 31) &&& 1) = Nat.testBit z 31 := by
  rw [Nat.and_one_is_mod, Nat.testBit_to_div_mod, Nat.shiftRight_eq_div_pow]
  exact decide_eq_decide.mpr (by omega)

/-- C1: the claim states that `update_eflags` sets ZERO (bit 6) iff the low
32 bits of the wide result are all zero.  The code instead tests `z == 0`
on the full 64-bit value: at the reachable call
`update_eflags(_, 1, 0xFFFFFFFF, 0x100000000)` — produced by opcode 0x83,
`reg` = 0 (ADD EAX, imm8 −1) with EAX = 1, machine `mC1` — the low 32 bits
of the wide result are all zero and the 32-bit destination becomes 0, yet
ZERO is left clear. -/
theorem update_eflags_zero_tests_full_wide :
    Nat.testBit (update_eflags 0 1 4294967295 4294967296) 6 = false
    ∧ 4294967296 % U32 = 0
    ∧ (code_83 mC1).map (fun e1 => (e1.regs 0, Nat.testBit e1.eflags 6)) = some (0, false) := by
  refine ⟨by decide, by decide, by decide⟩

/-- C2 counterexample: no opcode byte in the dispatch table maps to the
`cmp_r32_rm32` handler (`Emulator::new` never inserts it), so no opcode
present in the table performs CMP r32, r/m32.  (Opcodes are bytes, so the
scan over 0..255 is exhaustive.) -/
theorem cmp_r32_rm32_not_dispatched :
    ((List.range 256).all fun op => decide (insts op ≠ some Inst.cmp_r32_rm32)) = true := by
  decide

/-- C2 amended: the handler `cmp_r32_rm32` exists with the claimed CMP
semantics — on a register-direct ModRM (byte 0xC1: `re` = 0 is EAX,
`rm` = 1 is ECX) it reads the two registers, computes their wide 64-bit
(wrapping) difference, discards it without writing any operand, updates
the flags from it and advances eip past opcode and ModRM — but no
dispatch-table opcode maps to the handler. -/
theorem cmp_r32_rm32_semantics (f a b : Nat) :
    ((List.range 256).all fun op => decide (insts op ≠ some Inst.cmp_r32_rm32)) = true
    ∧ cmp_r32_rm32 (cmpM f a b) =
        some { cmpM f a b with eip := 2, eflags := update_eflags f a b (u64sub a b) } := by
  refine ⟨by decide, ?_⟩
  have hp := parse_reg_direct { cmpM f a b with eip := wrap32 ((cmpM f a b).eip + 1) } 193 rfl
    (by decide)
  unfold cmp_r32_rm32
  dsimp only
  rw [hp]
  rfl

/-- C3: for `mod` = 01, `rm` = 0, 8-bit displacement −128 and base register
value 0, `calc_memory_address` returns 128, whereas twos-complement
addition of base and displacement gives `2^32 − 128`.  The sign-aware
branch computes `base - (-disp) as u32`, and the i8 negation of −128 wraps
back to −128, so 0xFFFFFF80 rather than 0x00000080 is subtracted. -/
theorem calc_memory_address_disp8_min :
    ModRM.calc_memory_address mrDisp8Min mZero = some 128
    ∧ toU32 ((0 : Int) + (-128)) = U32 - 128
    ∧ (128 : Nat) ≠ U32 - 128 := by
  refine ⟨by decide, by decide, by decide⟩

/-- C4 counterexample: the result `Emulator::exec` leaves for its caller
(the final machine state — the Rust function returns `()`) does not
distinguish the halt classes: running `mC4` (a RET that pops 0) halts with
the natural `eip == 0` exit and leaves exactly the state `mC4f`, while
running `mC4f` (whose eip byte 0x00 has no table entry) halts with the
unimplemented-opcode exit and leaves exactly the same state `mC4f`. -/
theorem exec_result_confuses_halt_reasons :
    Emulator.exec 2 mC4 = (mC4f, Reason.natural)
    ∧ Emulator.exec 2 mC4f = (mC4f, Reason.unimpl) := by
  exact ⟨rfl, rfl⟩

/-- C4 amended: the final register/flags/instruction-pointer state is
observable by the caller (it is the machine state `exec` leaves behind),
but the halt reason is not part of the result: the two runs below end in
identical observable states while taking different halt exits, so the
halt classes are not distinguishable from the result. -/
theorem exec_final_state_observable_reason_not :
    (Emulator.exec 2 mC4).1 = (Emulator.exec 2 mC4f).1
    ∧ (Emulator.exec 2 mC4).2 ≠ (Emulator.exec 2 mC4f).2 := by
  exact ⟨rfl, by decide⟩

/-- C5 counterexample: SUB r/m32, imm8 (opcode 0x83, `reg` = 5) with
operand 5 and immediate −1 (machine `mC5`) writes 6 — the correct
difference mod 2^32 — but sets CARRY (bit 1), because the wide i64
difference is taken against the sign-extended immediate reinterpreted as
the unsigned 32-bit value 0xFFFFFFFF.  The claim asserts CARRY is clear
for a non-negative operand minus a negative immediate whose difference
fits in 32 bits. -/
theorem sub_imm8_sets_carry :
    (code_83 mC5).map (fun e => (e.regs 0, Nat.testBit e.eflags 1)) = some (6, true) := by
  decide

/-- C5 amended: for opcode 0x83 with ModRM `reg` = 5 (register-direct EAX,
machine `subM a ib f`), the destination is set to the operand minus the
sign-extended immediate modulo 2^32 (second conjunct), and the flags are
updated from the wide signed difference of the operand and the
sign-extended immediate reinterpreted as an unsigned 32-bit value
(zero-extended into the wide i64) — so CARRY reflects unsigned borrow
rather than being clear for negative immediates. -/
theorem sub_rm32_imm8_semantics (a ib f : Nat) :
    code_83 (subM a ib f) =
      some { subM a ib f with
              regs := fun j =>
                if j = 0 then toU32 ((a : Int) - (toU32 (toI8 ib) : Int)) else (subM a ib f).regs j
              eip := 3
              eflags := update_eflags f a (toU32 (toI8 ib)) (toU64 ((a : Int) - (toU32 (toI8 ib) : Int))) }
    ∧ toU32 ((a : Int) - (toU32 (toI8 ib) : Int)) = toU32 ((a : Int) - toI8 ib) := by
  constructor
  · have hp := parse_reg_direct { subM a ib f with eip := wrap32 ((subM a ib f).eip + 1) } 232 rfl
      (by decide)
    unfold code_83
    dsimp only
    rw [hp]
    rfl
  · exact toU32_sub_toU32 a (toI8 ib)

/-- C6: `update_eflags` sets CARRY (bit 1) iff the wide result has a bit at
position 32 or above, SIGN (bit 7) to bit 31 of the wide result, OVERFLOW
(bit 11) iff the operand signs differ and the sign of the low 32 result
bits differs from the first operand sign, and leaves every flag bit other
than 1, 6, 7, 11 unchanged. -/
theorem update_eflags_carry_sign_overflow (f x y z : Nat)
    (hf : f < U32) (hx : x < U32) (hy : y < U32) :
    (Nat.testBit (update_eflags f x y z) 1 = true ↔ (∃ i, 32 ≤ i ∧ Nat.testBit z i = true))
    ∧ Nat.testBit (update_eflags f x y z) 7 = Nat.testBit z 31
    ∧ (Nat.testBit (update_eflags f x y z) 11 = true ↔
        (Nat.testBit x 31 ≠ Nat.testBit y 31 ∧ Nat.testBit x 31 ≠ Nat.testBit z 31))
    ∧ (∀ i, i ≠ 1 → i ≠ 6 → i ≠ 7 → i ≠ 11 →
        Nat.testBit (update_eflags f x y z) i = Nat.testBit f i) := by
  have hsx := sign_decide x hx
  have hsy := sign_decide y hy
  have hsz := signz_decide z
  refine ⟨?_, ?_, ?_, ?_⟩
  · simp only [update_eflags, hsx, hsy, hsz]
    simp [apply_ite (fun t : Nat => Nat.testBit t 1), testBit_set, testBit_unset, highbits_iff]
  · simp only [update_eflags, hsx, hsy, hsz]
    simp [apply_ite (fun t : Nat => Nat.testBit t 7), testBit_set, testBit_unset]
  · simp only [update_eflags, hsx, hsy, hsz]
    simp [apply_ite (fun t : Nat => Nat.testBit t 11), testBit_set, testBit_unset]
  · intro i hi1 hi6 hi7 hi11
    by_cases hi : i < 32
    · simp only [update_eflags, hsx, hsy, hsz]
      simp [apply_ite (fun t : Nat => Nat.testBit t i), testBit_set, testBit_unset,
        Ne.symm hi1, Ne.symm hi6, Ne.symm hi7, Ne.symm hi11, hi]
    · have hfb : Nat.testBit f i = false := by
        refine Nat.testBit_lt_two_pow (lt_of_lt_of_le hf ?_)
        unfold U32
        exact Nat.pow_le_pow_right (by omega) (by omega)
      simp only [update_eflags, hsx, hsy, hsz]
      simp [apply_ite (fun t : Nat => Nat.testBit t i), testBit_set, testBit_unset,
        Ne.symm hi1, Ne.symm hi6, Ne.symm hi7, Ne.symm hi11, hi, hfb]

/-- Witness for C6 at `f = x = y = z = 0`. -/
theorem update_eflags_carry_sign_overflow_witness :
    (Nat.testBit (update_eflags 0 0 0 0) 1 = true ↔ (∃ i, 32 ≤ i ∧ Nat.testBit 0 i = true))
    ∧ Nat.testBit (update_eflags 0 0 0 0) 7 = Nat.testBit 0 31
    ∧ (Nat.testBit (update_eflags 0 0 0 0) 11 = true ↔
        (Nat.testBit 0 31 ≠ Nat.testBit 0 31 ∧ Nat.testBit 0 31 ≠ Nat.testBit 0 31))
    ∧ (∀ i, i ≠ 1 → i ≠ 6 → i ≠ 7 → i ≠ 11 →
        Nat.testBit (update_eflags 0 0 0 0) i = Nat.testBit 0 i) :=
  update_eflags_carry_sign_overflow 0 0 0 0 (by decide) (by decide) (by decide)

/-- C7: on a machine whose stack addresses are within memory bounds,
`push v` followed by `pop` returns `v` and restores ESP to its original
value; `push` decrements ESP by 4 before writing (the value sits at the
new, decremented ESP), `pop` reads at ESP before incrementing it by 4.
Registers other than ESP, the flags and the instruction pointer are
untouched. -/
theorem push_pop_roundtrip (e : Emulator) (v : Nat)
    (hv : v < U32) (h4 : 4 ≤ e.regs 4) (hlt : e.regs 4 < U32) (hsz : e.regs 4 ≤ e.mem.size) :
    ∃ e1 e2, Emulator.push e v = some e1
      ∧ e1.regs 4 = e.regs 4 - 4
      ∧ e1.mem.read_u32 (e.regs 4 - 4) = some v
      ∧ Emulator.pop e1 = some (v, e2)
      ∧ e2.regs 4 = e.regs 4
      ∧ e2.eip = e.eip ∧ e2.eflags = e.eflags
      ∧ (∀ i, i ≠ 4 → e2.regs i = e.regs i) := by
  have hp := push_spec e v h4 hlt hsz
  have hread : (e.mem.leWrite (e.regs 4 - 4) v).read_u32 (e.regs 4 - 4) = some v :=
    read_write e.mem _ v (by omega) hv
  have hpop := pop_spec { e with regs := fun j => if j = 4 then e.regs 4 - 4 else e.regs j,
                                 mem := e.mem.leWrite (e.regs 4 - 4) v }
      v (by simpa using hread) (by simp; omega)
  refine ⟨_, _, hp, by simp, hread, hpop, by simp; omega, rfl, rfl, ?_⟩
  intro i hi
  simp [hi]

/-- Witness for C7 on the concrete machine `mW7` (ESP = 100) pushing 7. -/
theorem push_pop_roundtrip_witness :
    ∃ e1 e2, Emulator.push mW7 7 = some e1
      ∧ e1.regs 4 = mW7.regs 4 - 4
      ∧ e1.mem.read_u32 (mW7.regs 4 - 4) = some 7
      ∧ Emulator.pop e1 = some (7, e2)
      ∧ e2.regs 4 = mW7.regs 4
      ∧ e2.eip = mW7.eip ∧ e2.eflags = mW7.eflags
      ∧ (∀ i, i ≠ 4 → e2.regs i = mW7.regs i) :=
  push_pop_roundtrip mW7 7 (by decide) (by decide) (by decide) (by decide)

/-- C8: executing CALL rel32 at address X (`e.eip` = X) pushes X + 5 — the
address immediately after the 5-byte CALL — and a RET executed next, with
the stack untouched in between, pops it back: the final instruction
pointer is X + 5 and ESP is restored. -/
theorem call_ret_roundtrip (e : Emulator)
    (hip : e.eip + 5 < U32) (hmem : e.eip + 5 ≤ e.mem.size)
    (h4 : 4 ≤ e.regs 4) (hlt : e.regs 4 < U32) (hsz : e.regs 4 ≤ e.mem.size) :
    ∃ e1 e2, call_rel32 e = some e1 ∧ X86Emu.ret e1 = some e2
      ∧ e2.eip = e.eip + 5 ∧ e2.regs 4 = e.regs 4 := by
  have hw5 : wrap32 (e.eip + 5) = e.eip + 5 := wrap32_small _ hip
  have hw1 : wrap32 (e.eip + 1) = e.eip + 1 := wrap32_small _ (by omega)
  have hp := push_spec e (e.eip + 5) h4 hlt hsz
  have hread : (e.mem.leWrite (e.regs 4 - 4) (e.eip + 5)).read_u32 (e.regs 4 - 4) =
      some (e.eip + 5) := read_write e.mem _ _ (by omega) (by omega)
  unfold call_rel32
  rw [hw1]
  unfold Memory.read_i32
  rw [if_pos (by omega : e.eip + 1 + 4 ≤ e.mem.size)]
  dsimp only [Option.bind, bind]
  rw [hw5, hp]
  dsimp only [Option.bind]
  by_cases hd : (0 : Int) ≤ i32Wrap (toI32 (e.mem.leVal (e.eip + 1)) + 5)
  · rw [if_pos hd]
    have hret := ret_spec
      { e with regs := fun j => if j = 4 then e.regs 4 - 4 else e.regs j,
               mem := e.mem.leWrite (e.regs 4 - 4) (e.eip + 5),
               eip := wrap32 ({ e with
                  regs := fun j => if j = 4 then e.regs 4 - 4 else e.regs j,
                  mem := e.mem.leWrite (e.regs 4 - 4) (e.eip + 5) }.eip +
                    (i32Wrap (toI32 (e.mem.leVal (e.eip + 1)) + 5)).toNat) }
      (e.eip + 5) (by simpa using hread) (by simp; omega)
    refine ⟨_, _, rfl, hret, rfl, ?_⟩
    simp
    omega
  · rw [if_neg hd]
    have hret := ret_spec
      { e with regs := fun j => if j = 4 then e.regs 4 - 4 else e.regs j,
               mem := e.mem.leWrite (e.regs 4 - 4) (e.eip + 5),
               eip := u32sub { e with
                  regs := fun j => if j = 4 then e.regs 4 - 4 else e.regs j,
                  mem := e.mem.leWrite (e.regs 4 - 4) (e.eip + 5) }.eip
                    (toU32 (i32Wrap (-i32Wrap (toI32 (e.mem.leVal (e.eip + 1)) + 5)))) }
      (e.eip + 5) (by simpa using hread) (by simp; omega)
    refine ⟨_, _, rfl, hret, rfl, ?_⟩
    simp
    omega

/-- Witness for C8 on the concrete machine `mW8` (CALL at eip = 16 with
relative offset 0, ESP = 100). -/
theorem call_ret_roundtrip_witness :
    ∃ e1 e2, call_rel32 mW8 = some e1 ∧ X86Emu.ret e1 = some e2
      ∧ e2.eip = mW8.eip + 5 ∧ e2.regs 4 = mW8.regs 4 :=
  call_ret_roundtrip mW8 (by decide) (by decide) (by decide) (by decide) (by decide)

/-- C9: when the byte at the instruction pointer is an opcode with no
dispatch-table entry, one iteration of the execution loop halts with the
unimplemented-opcode exit and returns the machine state completely
unchanged (registers, flags, instruction pointer and memory), for any
remaining fuel — the loop does not continue stepping. -/
theorem unknown_opcode_halts (e : Emulator) (n : Nat)
    (hip : e.eip < MEMORY_SIZE) (hm : e.eip < e.mem.size)
    (hop : insts (e.mem.data e.eip) = Option.none) :
    Emulator.exec (n + 1) e = (e, Reason.unimpl) := by
  unfold Emulator.exec
  rw [if_pos hip]
  unfold Memory.read_u8
  rw [if_pos hm]
  simp only [hop]

/-- Witness for C9 on the zeroed machine (opcode byte 0x00 has no entry). -/
theorem unknown_opcode_halts_witness :
    Emulator.exec 1 mZero = (mZero, Reason.unimpl) :=
  unknown_opcode_halts mZero 0 (by decide) (by decide) (by decide)

/-- C10: every register index produced by a decode step is in [0, 8): the
ModRM `reg` and `rm` fields extracted by `parse` are 3-bit values, and the
register ordinal derived by opcode arithmetic (`opcode - 0xB8` for
MOV r32,imm32; `opcode - 0x50` for PUSH r32; `opcode - 0x58` for POP r32)
is in [0, 8) for every opcode byte the dispatch table maps to the
respective handler. -/
theorem reg_index_in_range :
    (∀ (e e1 : Emulator) (mr : ModRM), ModRM.parse e = some (mr, e1) → mr.re < 8 ∧ mr.rm < 8)
    ∧ (∀ op : Fin 256, insts op.val = some Inst.mov_r32_imm32 → u8sub op.val 0xB8 < 8)
    ∧ (∀ op : Fin 256, insts op.val = some Inst.push_r32 → u8sub op.val 0x50 < 8)
    ∧ (∀ op : Fin 256, insts op.val = some Inst.pop_r32 → u8sub op.val 0x58 < 8) := by
  refine ⟨?_, by decide, by decide, by decide⟩
  intro e e1 mr h
  unfold ModRM.parse at h
  rcases hr : e.mem.read_u8 e.eip with _ | c
  · rw [hr] at h
    simp at h
  · rw [hr] at h
    simp only [bind, Option.some_bind] at h
    split at h
    · rcases hs : e.mem.read_u8 (wrap32 (e.eip + 1)) with _ | s
      · rw [hs] at h
        simp at h
      · rw [hs] at h
        split at h
        · simp only [Option.pure_def, Option.some_bind, Option.bind_eq_some,
            Option.some.injEq, Prod.mk.injEq] at h
          obtain ⟨d, hd, hmr, he⟩ := h
          rw [← hmr]
          exact ⟨and56_shift3_lt8 c, and7_lt8 c⟩
        · split at h
          · simp only [Option.pure_def, Option.some_bind, Option.bind_eq_some,
              Option.some.injEq, Prod.mk.injEq] at h
            obtain ⟨d, hd, hmr, he⟩ := h
            rw [← hmr]
            exact ⟨and56_shift3_lt8 c, and7_lt8 c⟩
          · simp only [Option.pure_def, Option.some_bind, Option.some.injEq,
              Prod.mk.injEq] at h
            obtain ⟨hmr, he⟩ := h
            rw [← hmr]
            exact ⟨and56_shift3_lt8 c, and7_lt8 c⟩
    · split at h
      · simp only [Option.pure_def, Option.some_bind, Option.bind_eq_some,
          Option.some.injEq, Prod.mk.injEq] at h
        obtain ⟨d, hd, hmr, he⟩ := h
        rw [← hmr]
        exact ⟨and56_shift3_lt8 c, and7_lt8 c⟩
      · split at h
        · simp only [Option.pure_def, Option.some_bind, Option.bind_eq_some,
            Option.some.injEq, Prod.mk.injEq] at h
          obtain ⟨d, hd, hmr, he⟩ := h
          rw [← hmr]
          exact ⟨and56_shift3_lt8 c, and7_lt8 c⟩
        · simp only [Option.pure_def, Option.some_bind, Option.some.injEq,
            Prod.mk.injEq] at h
          obtain ⟨hmr, he⟩ := h
          rw [← hmr]
          exact ⟨and56_shift3_lt8 c, and7_lt8 c⟩

/-- Witness for C10: parsing the ModRM byte 0xC1 on `mW10`, and the opcode
ordinals for 0xB8, 0x50 and 0x58. -/
theorem reg_index_in_range_witness :
    (mrW10.re < 8 ∧ mrW10.rm < 8)
    ∧ u8sub 0xB8 0xB8 < 8 ∧ u8sub 0x50 0x50 < 8 ∧ u8sub 0x58 0x58 < 8 :=
  ⟨reg_index_in_range.1 mW10 mW10a mrW10 rfl,
   reg_index_in_range.2.1 ⟨0xB8, by decide⟩ (by decide),
   reg_index_in_range.2.2.1 ⟨0x50, by decide⟩ (by decide),
   reg_index_in_range.2.2.2 ⟨0x58, by decide⟩ (by decide)⟩

end X86Emu
